import Mathlib

/-!
Verification of the noise-model application engine described by the
repository's tutorial notebook
`examples/braket_features/Noise_models/Noise_models_on_Amazon_Braket.ipynb`.

The notebook is a usage tutorial: it builds noise models, applies them to
circuits, filters them and serializes them, and records the resulting
outputs.  The engine itself (the `NoiseModel` / `Criteria` classes of the
Braket SDK) is not part of the repository, so the definitions below are a
shallow embedding modelled from the specification, with the notebook's
recorded cell outputs taken as the authority wherever they exhibit concrete
behaviour.
-/

namespace BraketNoise

/-- Gate kinds used by the tutorial's circuits (`Gate.H`, `Gate.S`, ...). -/
inductive GateKind
  | H
  | S
  | X
  | Y
  | Z
  | CNot
  deriving DecidableEq, Repr

/-- Observable kinds used by result/measurement declarations
(`Observable.X`, `Observable.Y`, `Observable.Z`). -/
inductive ObservableKind
  | X
  | Y
  | Z
  deriving DecidableEq, Repr

/-- The closed vocabulary of noise-channel kinds imported by the notebook. -/
inductive NoiseKind
  | Depolarizing
  | BitFlip
  | PhaseFlip
  | AmplitudeDamping
  | PhaseDamping
  | PauliChannel
  | TwoQubitDepolarizing
  deriving DecidableEq, Repr

/-- Modelled from the spec: a noise channel is an immutable value made of a
kind tag and a tuple of numeric parameters (probabilities); probabilities are
represented exactly as rationals. -/
structure NoiseChannel where
  kind : NoiseKind
  params : List ℚ
  deriving DecidableEq, Repr

/-- Modelled from the spec: the qubit arity of a channel is fixed by its
kind (`TwoQubitDepolarizing` acts on two qubits, every other kind on one). -/
def NoiseChannel.qubitCount (ch : NoiseChannel) : Nat :=
  match ch.kind with
  | .TwoQubitDepolarizing => 2
  | _ => 1

/-- Modelled from the spec: criteria are a closed sum of two variants.
`gate` carries an optional set of gate kinds (`none` = all gates) and an
optional set of qubits (`none` = all qubits); `observable` carries an
optional set of observable kinds and an optional set of qubits.  `none` is
the "match all" sentinel and is distinct from an (empty) explicit set. -/
inductive Criteria
  | gate (gates : Option (List GateKind)) (qubits : Option (List Nat))
  | observable (observables : Option (List ObservableKind)) (qubits : Option (List Nat))
  deriving DecidableEq, Repr

/-- Source-named constructor: `GateCriteria(gates, qubits)`. -/
def GateCriteria (gates : Option (List GateKind)) (qubits : Option (List Nat)) : Criteria :=
  Criteria.gate gates qubits

/-- Source-named constructor: `ObservableCriteria(observables, qubits)`. -/
def ObservableCriteria (observables : Option (List ObservableKind))
    (qubits : Option (List Nat)) : Criteria :=
  Criteria.observable observables qubits

/-- A rule of a noise model: the pair of a channel and a criteria. -/
structure NoiseModelInstruction where
  noise : NoiseChannel
  criteria : Criteria
  deriving DecidableEq, Repr

/-- Modelled from the spec: a noise model is an ordered list of
instructions; order is significant. -/
structure NoiseModel where
  instructions : List NoiseModelInstruction
  deriving DecidableEq, Repr

/-- An item of a circuit's timeline: either an original gate operation or a
noise operation (inserted by a noise model, or already present). -/
inductive CircuitItem
  | gateOp (gate : GateKind) (targets : List Nat)
  | noiseOp (noise : NoiseChannel) (targets : List Nat)
  deriving DecidableEq, Repr

/-- The target qubits of a circuit item. -/
def CircuitItem.targets : CircuitItem → List Nat
  | .gateOp _ ts => ts
  | .noiseOp _ ts => ts

/-- A result/measurement declaration: an observable and its target qubits. -/
structure ResultDecl where
  observable : ObservableKind
  targets : List Nat
  deriving DecidableEq, Repr

/-- A circuit: an ordered list of timeline items followed by a list of
result/measurement declarations. -/
structure Circuit where
  items : List CircuitItem
  results : List ResultDecl
  deriving DecidableEq, Repr

/-- Membership test against an optional filter set: `none` matches
everything, `some s` matches exactly the members of `s`. -/
def inFilter {α : Type} [DecidableEq α] (filt : Option (List α)) (x : α) : Bool :=
  match filt with
  | none => true
  | some s => decide (x ∈ s)

/-- Containment test against an optional filter set: `none` matches any
target list, `some s` requires every target to be in `s`. -/
def allInFilter {α : Type} [DecidableEq α] (filt : Option (List α)) (xs : List α) : Bool :=
  match filt with
  | none => true
  | some s => decide (∀ x ∈ xs, x ∈ s)

/-- Modelled from the spec: whether a criteria matches a circuit item.
A `gate` criteria matches a gate operation when the gate filter is absent or
contains the gate, and the qubit filter is absent or contains every target.
A noise operation has no gate kind, so a present gate filter never matches
it, while an absent gate filter (`none`, match-all) does; this realizes the
spec's rule that noise operations already present in the input are treated
as ordinary operations matched by gate kind.  `observable` criteria never
match circuit items. -/
def Criteria.matchesItem : Criteria → CircuitItem → Bool
  | .gate gs qs, .gateOp g ts => inFilter gs g && allInFilter qs ts
  | .gate gs qs, .noiseOp _ ts => gs.isNone && allInFilter qs ts
  | .observable _ _, _ => false

/-- Modelled from the spec: whether a criteria matches a result declaration.
`gate` criteria never match result declarations; `observable` criteria match
when the observable filter is absent or contains the declaration's
observable, and the qubit filter is absent or contains every target. -/
def Criteria.matchesResult : Criteria → ResultDecl → Bool
  | .gate _ _, _ => false
  | .observable os qs, d => inFilter os d.observable && allInFilter qs d.targets

/-- Modelled from the spec: the noise operations a matched channel inserts
for a given target list.  A one-qubit channel triggered by an operation
yields one noise operation per target qubit; a two-qubit channel yields a
single noise operation on the full target tuple. -/
def insertedNoise (ch : NoiseChannel) (ts : List Nat) : List CircuitItem :=
  if ch.qubitCount = 1 then ts.map (fun q => CircuitItem.noiseOp ch [q])
  else [CircuitItem.noiseOp ch ts]

/-- Modelled from the spec: the noise operations inserted immediately after
one circuit item, gathered from the model's instructions in list order. -/
def gateNoiseFor (m : NoiseModel) (it : CircuitItem) : List CircuitItem :=
  m.instructions.flatMap (fun i =>
    if i.criteria.matchesItem it then insertedNoise i.noise it.targets else [])

/-- Modelled from the spec: the gate-noise pass of `apply`.  It walks the
input items in order and emits each item followed by the noise operations of
the instructions matching it; items created during the pass are never
themselves examined. -/
def applyGateNoise (m : NoiseModel) (items : List CircuitItem) : List CircuitItem :=
  items.flatMap (fun it => it :: gateNoiseFor m it)

/-- Modelled from the spec: the readout-noise pass of `apply`.  For every
result declaration in circuit order, every `observable` instruction matching
it (in model order) contributes one readout-noise operation on the
declaration's qubits. -/
def readoutNoiseFor (m : NoiseModel) (ds : List ResultDecl) : List CircuitItem :=
  ds.flatMap (fun d =>
    m.instructions.flatMap (fun i =>
      if i.criteria.matchesResult d then [CircuitItem.noiseOp i.noise d.targets] else []))

/-- Modelled from the spec: `NoiseModel.apply(circuit)`.  The rewritten
circuit keeps all original items in order with matched gate noise inserted
immediately after each item, places the readout noise after all timeline
items (conceptually just before readout), and keeps the result declarations
unchanged. -/
def NoiseModel.apply (m : NoiseModel) (c : Circuit) : Circuit :=
  { items := applyGateNoise m c.items ++ readoutNoiseFor m c.results,
    results := c.results }

/-- Modelled from the spec: `add_noise` appends one instruction at the end
of the model's ordered list; duplicates are intentionally retained. -/
def NoiseModel.add_noise (m : NoiseModel) (ch : NoiseChannel) (cr : Criteria) : NoiseModel :=
  { instructions := m.instructions ++ [{ noise := ch, criteria := cr }] }

/-- The optional filters accepted by `from_filter`, as exercised by the
notebook: `qubit`, `gate` and `noise`. -/
structure NoiseFilter where
  qubit : Option Nat := none
  gate : Option GateKind := none
  noise : Option NoiseKind := none

/-- The qubit filter set carried by a criteria, of either variant. -/
def Criteria.qubitSet : Criteria → Option (List Nat)
  | .gate _ qs => qs
  | .observable _ qs => qs

/-- Modelled from the spec: an instruction passes a `qubit` filter when the
filter is absent, or its criteria's qubit set is the match-all sentinel
`none`, or the filtered qubit belongs to that set. -/
def passesQubitFilter (q : Option Nat) (c : Criteria) : Bool :=
  match q with
  | none => true
  | some qv =>
    match c.qubitSet with
    | none => true
    | some s => decide (qv ∈ s)

/-- Modelled from the spec: an instruction passes a `gate` filter when the
filter is absent, or its criteria is a `gate` criteria whose gate set is
`none` or contains the filtered gate.  Following the notebook's recorded
output for `from_filter(gate=Gate.H)` — which drops both `observable`
instructions of the model — an `observable` criteria does not pass a present
`gate` filter. -/
def passesGateFilter (g : Option GateKind) (c : Criteria) : Bool :=
  match g with
  | none => true
  | some gv =>
    match c with
    | .gate gs _ => inFilter gs gv
    | .observable _ _ => false

/-- Modelled from the spec: an instruction passes a `noise` filter when the
filter is absent or its channel's kind is exactly the filtered kind. -/
def passesNoiseFilter (nk : Option NoiseKind) (ch : NoiseChannel) : Bool :=
  match nk with
  | none => true
  | some k => decide (ch.kind = k)

/-- Modelled from the spec: `from_filter` returns a new model keeping, in
order, exactly the instructions that pass all supplied filters; filters are
independent and conjunctive, and the receiver is unchanged. -/
def NoiseModel.from_filter (m : NoiseModel) (f : NoiseFilter) : NoiseModel :=
  { instructions := m.instructions.filter (fun i =>
      passesQubitFilter f.qubit i.criteria
        && passesGateFilter f.gate i.criteria
        && passesNoiseFilter f.noise i.noise) }

/-- The stable string tag a noise kind serializes to (its class name). -/
def NoiseKind.className : NoiseKind → String
  | .Depolarizing => "Depolarizing"
  | .BitFlip => "BitFlip"
  | .PhaseFlip => "PhaseFlip"
  | .AmplitudeDamping => "AmplitudeDamping"
  | .PhaseDamping => "PhaseDamping"
  | .PauliChannel => "PauliChannel"
  | .TwoQubitDepolarizing => "TwoQubitDepolarizing"

/-- The name a gate kind serializes to. -/
def GateKind.name : GateKind → String
  | .H => "H"
  | .S => "S"
  | .X => "X"
  | .Y => "Y"
  | .Z => "Z"
  | .CNot => "CNot"

/-- The name an observable kind serializes to. -/
def ObservableKind.name : ObservableKind → String
  | .X => "X"
  | .Y => "Y"
  | .Z => "Z"

/-- Parse a noise-kind tag; unknown tags are malformed input. -/
def parseNoiseKind (s : String) : Option NoiseKind :=
  if s = "Depolarizing" then some NoiseKind.Depolarizing
  else if s = "BitFlip" then some NoiseKind.BitFlip
  else if s = "PhaseFlip" then some NoiseKind.PhaseFlip
  else if s = "AmplitudeDamping" then some NoiseKind.AmplitudeDamping
  else if s = "PhaseDamping" then some NoiseKind.PhaseDamping
  else if s = "PauliChannel" then some NoiseKind.PauliChannel
  else if s = "TwoQubitDepolarizing" then some NoiseKind.TwoQubitDepolarizing
  else none

/-- Parse a gate name; unknown names are malformed input. -/
def parseGateKind (s : String) : Option GateKind :=
  if s = "H" then some GateKind.H
  else if s = "S" then some GateKind.S
  else if s = "X" then some GateKind.X
  else if s = "Y" then some GateKind.Y
  else if s = "Z" then some GateKind.Z
  else if s = "CNot" then some GateKind.CNot
  else none

/-- Parse an observable name; unknown names are malformed input. -/
def parseObservableKind (s : String) : Option ObservableKind :=
  if s = "X" then some ObservableKind.X
  else if s = "Y" then some ObservableKind.Y
  else if s = "Z" then some ObservableKind.Z
  else none

/-- Parse every element of a list, failing if any element fails. -/
def parseAll {α : Type} (f : String → Option α) : List String → Option (List α)
  | [] => some []
  | s :: rest =>
    match f s, parseAll f rest with
    | some a, some as => some (a :: as)
    | _, _ => none

/-- The structured form of a serialized noise channel
(`__class__`, parameters, `qubit_count`). -/
structure NoiseDict where
  className : String
  params : List ℚ
  qubitCount : Nat
  deriving DecidableEq, Repr

/-- The structured form of a serialized criteria (`__class__`, the gates or
observables list or `null`, the qubits list or `null`). -/
structure CriteriaDict where
  className : String
  keys : Option (List String)
  qubits : Option (List Nat)
  deriving DecidableEq, Repr

/-- The structured form of one serialized instruction. -/
structure InstructionDict where
  noise : NoiseDict
  criteria : CriteriaDict
  deriving DecidableEq, Repr

/-- The structured form of a serialized model: the root object's
`instructions` list. -/
structure ModelDict where
  instructions : List InstructionDict
  deriving DecidableEq, Repr

/-- Modelled from the spec: serialize one channel. -/
def NoiseChannel.to_dict (ch : NoiseChannel) : NoiseDict :=
  { className := ch.kind.className, params := ch.params, qubitCount := ch.qubitCount }

/-- Modelled from the spec: deserialize one channel; an unrecognized
`__class__` tag is malformed input. -/
def NoiseChannel.from_dict (d : NoiseDict) : Option NoiseChannel :=
  (parseNoiseKind d.className).map (fun k => { kind := k, params := d.params })

/-- Modelled from the spec: serialize one criteria, tagging it with its
class name; `none` filter sets serialize to `null`. -/
def Criteria.to_dict : Criteria → CriteriaDict
  | .gate gs qs =>
    { className := "GateCriteria", keys := gs.map (fun l => l.map GateKind.name), qubits := qs }
  | .observable os qs =>
    { className := "ObservableCriteria",
      keys := os.map (fun l => l.map ObservableKind.name), qubits := qs }

/-- Modelled from the spec: deserialize one criteria, validating the class
tag against the closed vocabulary; unknown tags or unknown gate/observable
names are malformed input. -/
def Criteria.from_dict (d : CriteriaDict) : Option Criteria :=
  if d.className = "GateCriteria" then
    match d.keys with
    | none => some (Criteria.gate none d.qubits)
    | some names => (parseAll parseGateKind names).map (fun gs => Criteria.gate (some gs) d.qubits)
  else if d.className = "ObservableCriteria" then
    match d.keys with
    | none => some (Criteria.observable none d.qubits)
    | some names =>
      (parseAll parseObservableKind names).map (fun os => Criteria.observable (some os) d.qubits)
  else none

/-- Modelled from the spec: serialize a model instruction by instruction,
in order. -/
def NoiseModel.to_dict (m : NoiseModel) : ModelDict :=
  { instructions := m.instructions.map (fun i =>
      { noise := i.noise.to_dict, criteria := i.criteria.to_dict }) }

/-- Deserialize a list of instruction records, failing if any record is
malformed. -/
def parseInstructions : List InstructionDict → Option (List NoiseModelInstruction)
  | [] => some []
  | d :: rest =>
    match NoiseChannel.from_dict d.noise, Criteria.from_dict d.criteria,
        parseInstructions rest with
    | some ch, some cr, some is => some ({ noise := ch, criteria := cr } :: is)
    | _, _, _ => none

/-- Modelled from the spec: `NoiseModel().from_dict(...)`, all-or-nothing. -/
def NoiseModel.from_dict (d : ModelDict) : Option NoiseModel :=
  (parseInstructions d.instructions).map (fun is => { instructions := is })

/-- The probability 0.1 used throughout the notebook, given in reduced form
so the kernel can evaluate equalities between channels. -/
def prob01 : ℚ := ⟨1, 10, by decide, by decide⟩

/-- The probability 0.2. -/
def prob02 : ℚ := ⟨1, 5, by decide, by decide⟩

/-- The probability 0.3. -/
def prob03 : ℚ := ⟨3, 10, by decide, by decide⟩

/-- The probability 0.01. -/
def prob001 : ℚ := ⟨1, 100, by decide, by decide⟩

/-- The probability 0.02. -/
def prob002 : ℚ := ⟨1, 50, by decide, by decide⟩

/-- Criteria of the `gate` variant that carry an explicit (non-`none`) gate
filter.  Such criteria can match only gate operations: never a noise
operation, and never a result declaration. -/
def strictGateCriteria : Criteria → Bool
  | .gate gs _ => gs.isSome
  | .observable _ _ => false

/-- A criteria with a present gate filter does not match noise operations. -/
theorem matchesItem_noiseOp_eq_false {c : Criteria} (h : strictGateCriteria c = true)
    (ch : NoiseChannel) (ts : List Nat) :
    c.matchesItem (CircuitItem.noiseOp ch ts) = false := by
  cases c with
  | gate gs qs =>
    cases gs with
    | none => simp [strictGateCriteria] at h
    | some l => simp [Criteria.matchesItem]
  | observable os qs => rfl

/-- Noise gathered from a concatenated instruction list is the noise of the
first part followed by the noise of the second part. -/
theorem gateNoiseFor_append (l1 l2 : List NoiseModelInstruction) (it : CircuitItem) :
    gateNoiseFor ⟨l1 ++ l2⟩ it = gateNoiseFor ⟨l1⟩ it ++ gateNoiseFor ⟨l2⟩ it := by
  simp [gateNoiseFor, List.flatMap_append]

/-- The gate-noise pass distributes over concatenation of item lists. -/
theorem applyGateNoise_append (m : NoiseModel) (l1 l2 : List CircuitItem) :
    applyGateNoise m (l1 ++ l2) = applyGateNoise m l1 ++ applyGateNoise m l2 := by
  simp [applyGateNoise, List.flatMap_append]

/-- Unfolding of the gate-noise pass on one item. -/
theorem applyGateNoise_cons (m : NoiseModel) (a : CircuitItem) (l : List CircuitItem) :
    applyGateNoise m (a :: l) = a :: (gateNoiseFor m a ++ applyGateNoise m l) := by
  simp [applyGateNoise]

/-- Every item produced by `insertedNoise` is a noise operation. -/
theorem mem_insertedNoise {ch : NoiseChannel} {ts : List Nat} {x : CircuitItem}
    (hx : x ∈ insertedNoise ch ts) : ∃ ch2 ts2, x = CircuitItem.noiseOp ch2 ts2 := by
  unfold insertedNoise at hx
  split at hx
  · obtain ⟨q, _, rfl⟩ := List.mem_map.mp hx
    exact ⟨ch, [q], rfl⟩
  · rw [List.mem_singleton] at hx
    exact ⟨ch, ts, hx⟩

/-- Every item produced by the per-item noise collection is a noise
operation. -/
theorem mem_gateNoiseFor {m : NoiseModel} {it x : CircuitItem}
    (hx : x ∈ gateNoiseFor m it) : ∃ ch ts, x = CircuitItem.noiseOp ch ts := by
  simp only [gateNoiseFor, List.mem_flatMap] at hx
  obtain ⟨i, _, hxi⟩ := hx
  split at hxi
  · exact mem_insertedNoise hxi
  · simp at hxi

/-- Every item produced by the readout pass is a noise operation. -/
theorem mem_readoutNoiseFor {m : NoiseModel} {ds : List ResultDecl} {x : CircuitItem}
    (hx : x ∈ readoutNoiseFor m ds) : ∃ ch ts, x = CircuitItem.noiseOp ch ts := by
  simp only [readoutNoiseFor, List.mem_flatMap] at hx
  obtain ⟨d, _, i, _, hxi⟩ := hx
  split at hxi
  · rw [List.mem_singleton] at hxi
    exact ⟨i.noise, d.targets, hxi⟩
  · simp at hxi

/-- A model whose instructions all carry an explicit gate filter collects no
noise for a noise operation. -/
theorem gateNoiseFor_noiseOp {m : NoiseModel}
    (h : ∀ i ∈ m.instructions, strictGateCriteria i.criteria = true)
    (ch : NoiseChannel) (ts : List Nat) :
    gateNoiseFor m (CircuitItem.noiseOp ch ts) = [] := by
  simp only [gateNoiseFor, List.flatMap_eq_nil_iff]
  intro i hi
  simp [matchesItem_noiseOp_eq_false (h i hi)]

/-- The gate-noise pass leaves a list unchanged when no item of it collects
any noise. -/
theorem applyGateNoise_eq_self {m : NoiseModel} {l : List CircuitItem}
    (h : ∀ x ∈ l, gateNoiseFor m x = []) : applyGateNoise m l = l := by
  unfold applyGateNoise
  calc l.flatMap (fun it => it :: gateNoiseFor m it)
      = l.flatMap (fun it => [it]) :=
        List.flatMap_congr (fun x hx => by rw [h x hx])
    _ = l := by simp

/-- Readout noise for one declaration, collected from a model whose
instructions all carry an explicit gate filter, is empty. -/
theorem readoutInner_strict {l : List NoiseModelInstruction}
    (h : ∀ i ∈ l, strictGateCriteria i.criteria = true) (d : ResultDecl) :
    (l.flatMap fun i =>
      if i.criteria.matchesResult d then [CircuitItem.noiseOp i.noise d.targets] else []) = [] := by
  rw [List.flatMap_eq_nil_iff]
  intro i hi
  have hs := h i hi
  cases hc : i.criteria with
  | gate gs qs => simp [Criteria.matchesResult, hc]
  | observable os qs => rw [hc] at hs; simp [strictGateCriteria] at hs

/-- A model whose instructions all carry an explicit gate filter produces no
readout noise. -/
theorem readoutNoiseFor_strict {m : NoiseModel}
    (h : ∀ i ∈ m.instructions, strictGateCriteria i.criteria = true) (ds : List ResultDecl) :
    readoutNoiseFor m ds = [] := by
  unfold readoutNoiseFor
  rw [List.flatMap_eq_nil_iff]
  intro d _
  exact readoutInner_strict h d

/-- Prepending instructions that all carry an explicit gate filter does not
change the readout noise. -/
theorem readoutNoiseFor_concat_strict (m1 m2 : NoiseModel)
    (h : ∀ i ∈ m2.instructions, strictGateCriteria i.criteria = true) (ds : List ResultDecl) :
    readoutNoiseFor ⟨m2.instructions ++ m1.instructions⟩ ds = readoutNoiseFor m1 ds := by
  unfold readoutNoiseFor
  apply List.flatMap_congr
  intro d _
  simp only [List.flatMap_append, readoutInner_strict h d, List.nil_append]

/-- Running the gate-noise pass of a second model after a first is the same
as running the pass of the concatenated model (second model's instructions
first), provided every instruction of the second model carries an explicit
gate filter — so it cannot match the noise inserted by the first pass. -/
theorem applyGateNoise_comp (m1 m2 : NoiseModel)
    (h : ∀ i ∈ m2.instructions, strictGateCriteria i.criteria = true)
    (l : List CircuitItem) :
    applyGateNoise m2 (applyGateNoise m1 l)
      = applyGateNoise ⟨m2.instructions ++ m1.instructions⟩ l := by
  induction l with
  | nil => rfl
  | cons it rest ih =>
    have hnoise : applyGateNoise m2 (gateNoiseFor m1 it) = gateNoiseFor m1 it :=
      applyGateNoise_eq_self (fun x hx => by
        obtain ⟨ch, ts, rfl⟩ := mem_gateNoiseFor hx
        exact gateNoiseFor_noiseOp h ch ts)
    rw [applyGateNoise_cons, applyGateNoise_cons, applyGateNoise_cons,
      applyGateNoise_append, hnoise, ih, gateNoiseFor_append]
    simp [List.append_assoc]

/-- C1: when two or more instructions of a model match the same operation,
`apply` inserts their noise operations immediately after the operation in
the order the instructions appear in the model's list — the first-added
matching rule's noise is structurally closest, with no other tie-break.  In
particular the model built by adding `Depolarizing(0.1)` on
`GateCriteria(gates={H})` and then `AmplitudeDamping(0.1)` on
`GateCriteria(qubits={0})`, applied to the circuit `H(q0)`, yields `H(q0)`,
then `Depolarizing(0.1)@q0`, then `AmplitudeDamping(0.1)@q0`; in general,
noise collected from a concatenation of instruction lists is the noise of
the earlier instructions followed by the noise of the later ones. -/
theorem matched_noise_inserted_in_model_order :
    (((NoiseModel.mk []).add_noise ⟨.Depolarizing, [prob01]⟩
          (GateCriteria (some [.H]) none)).add_noise ⟨.AmplitudeDamping, [prob01]⟩
          (GateCriteria none (some [0]))).apply ⟨[.gateOp .H [0]], []⟩
      = ⟨[.gateOp .H [0],
          .noiseOp ⟨.Depolarizing, [prob01]⟩ [0],
          .noiseOp ⟨.AmplitudeDamping, [prob01]⟩ [0]], []⟩
    ∧ ∀ (l1 l2 : List NoiseModelInstruction) (it : CircuitItem),
        gateNoiseFor ⟨l1 ++ l2⟩ it = gateNoiseFor ⟨l1⟩ it ++ gateNoiseFor ⟨l2⟩ it := by
  exact ⟨by decide, gateNoiseFor_append⟩

/-- C2, counterexample: for the single-instruction model
`(Depolarizing(0.1), GateCriteria(gates={H}, qubits=None))` and the circuit
`H(q0), S(q1), H(q2)` with no result declarations, `apply` returns the
claimed sequence — but that sequence has five items, not six as the claim
states. -/
theorem single_rule_example_not_six_items :
    ((NoiseModel.mk [⟨⟨.Depolarizing, [prob01]⟩, GateCriteria (some [.H]) none⟩]).apply
        ⟨[.gateOp .H [0], .gateOp .S [1], .gateOp .H [2]], []⟩).items
      = [.gateOp .H [0], .noiseOp ⟨.Depolarizing, [prob01]⟩ [0], .gateOp .S [1],
         .gateOp .H [2], .noiseOp ⟨.Depolarizing, [prob01]⟩ [2]]
    ∧ ((NoiseModel.mk [⟨⟨.Depolarizing, [prob01]⟩, GateCriteria (some [.H]) none⟩]).apply
        ⟨[.gateOp .H [0], .gateOp .S [1], .gateOp .H [2]], []⟩).items.length ≠ 6 := by
  exact ⟨by decide, by decide⟩

/-- C2, amended: the same `apply` call returns exactly
`H(q0), Depolarizing(0.1)@q0, S(q1), H(q2), Depolarizing(0.1)@q2` — five
items, noise inserted only immediately after the two `H` gates and nowhere
else, all original operations preserved in their original relative order. -/
theorem single_rule_example_five_items :
    (NoiseModel.mk [⟨⟨.Depolarizing, [prob01]⟩, GateCriteria (some [.H]) none⟩]).apply
        ⟨[.gateOp .H [0], .gateOp .S [1], .gateOp .H [2]], []⟩
      = ⟨[.gateOp .H [0], .noiseOp ⟨.Depolarizing, [prob01]⟩ [0], .gateOp .S [1],
          .gateOp .H [2], .noiseOp ⟨.Depolarizing, [prob01]⟩ [2]], []⟩
    ∧ ((NoiseModel.mk [⟨⟨.Depolarizing, [prob01]⟩, GateCriteria (some [.H]) none⟩]).apply
        ⟨[.gateOp .H [0], .gateOp .S [1], .gateOp .H [2]], []⟩).items.length = 5 := by
  exact ⟨by decide, by decide⟩

/-- C3, counterexample: with `M1 = [(Depolarizing(0.1), GateCriteria({H}, None))]`,
`M2 = [(BitFlip(0.2), GateCriteria({H}, {0}))]` and the circuit `H(q0)` —
the notebook's own worked example — neither model's criteria match any
noise operation at all (both carry an explicit gate filter, shown by the
two universally-quantified conjuncts), yet applying `M1` then `M2` gives
`H, BitFlip, Depolarizing`, while the single model `M1 ++ M2` gives
`H, Depolarizing, BitFlip`: the two sides differ even though no
cross-matching occurs, refuting the claimed equality and its claimed
divergence condition. -/
theorem sequential_apply_differs_from_forward_concat :
    (NoiseModel.mk [⟨⟨.BitFlip, [prob02]⟩, GateCriteria (some [.H]) (some [0])⟩]).apply
        ((NoiseModel.mk [⟨⟨.Depolarizing, [prob01]⟩, GateCriteria (some [.H]) none⟩]).apply
          ⟨[.gateOp .H [0]], []⟩)
      ≠ (NoiseModel.mk ([⟨⟨.Depolarizing, [prob01]⟩, GateCriteria (some [.H]) none⟩]
          ++ [⟨⟨.BitFlip, [prob02]⟩, GateCriteria (some [.H]) (some [0])⟩])).apply
          ⟨[.gateOp .H [0]], []⟩
    ∧ (∀ (ch : NoiseChannel) (ts : List Nat),
        (GateCriteria (some [.H]) (some [0])).matchesItem (.noiseOp ch ts) = false)
    ∧ (∀ (ch : NoiseChannel) (ts : List Nat),
        (GateCriteria (some [.H]) none).matchesItem (.noiseOp ch ts) = false) := by
  exact ⟨by decide, fun ch ts => rfl, fun ch ts => rfl⟩

/-- C3, amended: applying `M1` then `M2` coincides with applying once the
single model whose instruction list is `M2`'s instructions followed by
`M1`'s (the reverse of the claimed order), whenever every instruction of
`M2` carries an explicit gate filter — the syntactic condition guaranteeing
that `M2` matches no noise operation (in particular none inserted by `M1`)
and contributes no readout noise. -/
theorem sequential_apply_eq_reversed_concat (m1 m2 : NoiseModel) (c : Circuit)
    (h : ∀ i ∈ m2.instructions, strictGateCriteria i.criteria = true) :
    m2.apply (m1.apply c) = NoiseModel.apply ⟨m2.instructions ++ m1.instructions⟩ c := by
  unfold NoiseModel.apply
  simp only [Circuit.mk.injEq, and_true]
  have hreadout : applyGateNoise m2 (readoutNoiseFor m1 c.results)
      = readoutNoiseFor m1 c.results :=
    applyGateNoise_eq_self (fun x hx => by
      obtain ⟨ch, ts, rfl⟩ := mem_readoutNoiseFor hx
      exact gateNoiseFor_noiseOp h ch ts)
  rw [applyGateNoise_append, hreadout, readoutNoiseFor_strict h,
    applyGateNoise_comp m1 m2 h, readoutNoiseFor_concat_strict m1 m2 h]
  simp

/-- Witness for the C3 amended theorem: the hypothesis holds for the
notebook's second model, and the conclusion is the concrete equality of the
two application paths on `H(q0)`. -/
theorem sequential_apply_eq_reversed_concat_witness :
    (∀ i ∈ (NoiseModel.mk
        [⟨⟨.BitFlip, [prob02]⟩, GateCriteria (some [.H]) (some [0])⟩]).instructions,
      strictGateCriteria i.criteria = true)
    ∧ (NoiseModel.mk [⟨⟨.BitFlip, [prob02]⟩, GateCriteria (some [.H]) (some [0])⟩]).apply
        ((NoiseModel.mk [⟨⟨.Depolarizing, [prob01]⟩, GateCriteria (some [.H]) none⟩]).apply
          ⟨[.gateOp .H [0]], []⟩)
      = NoiseModel.apply
          ⟨(NoiseModel.mk
              [⟨⟨.BitFlip, [prob02]⟩, GateCriteria (some [.H]) (some [0])⟩]).instructions
            ++ (NoiseModel.mk
              [⟨⟨.Depolarizing, [prob01]⟩, GateCriteria (some [.H]) none⟩]).instructions⟩
          ⟨[.gateOp .H [0]], []⟩ :=
  ⟨by decide,
    sequential_apply_eq_reversed_concat
      (NoiseModel.mk [⟨⟨.Depolarizing, [prob01]⟩, GateCriteria (some [.H]) none⟩])
      (NoiseModel.mk [⟨⟨.BitFlip, [prob02]⟩, GateCriteria (some [.H]) (some [0])⟩])
      ⟨[.gateOp .H [0]], []⟩ (by decide)⟩

/-- Parsing the serialized name of a noise kind recovers the kind. -/
theorem parseNoiseKind_className (k : NoiseKind) : parseNoiseKind k.className = some k := by
  cases k <;> rfl

/-- Parsing the serialized name of a gate kind recovers the kind. -/
theorem parseGateKind_name (g : GateKind) : parseGateKind g.name = some g := by
  cases g <;> rfl

/-- Parsing the serialized name of an observable kind recovers the kind. -/
theorem parseObservableKind_name (o : ObservableKind) :
    parseObservableKind o.name = some o := by
  cases o <;> rfl

/-- Parsing a list of serialized names recovers the original list. -/
theorem parseAll_map {α : Type} (f : String → Option α) (nm : α → String)
    (h : ∀ a, f (nm a) = some a) (l : List α) : parseAll f (l.map nm) = some l := by
  induction l with
  | nil => rfl
  | cons a rest ih => simp [parseAll, h a, ih]

/-- Deserializing a serialized channel recovers the channel. -/
theorem channel_from_dict_round (ch : NoiseChannel) :
    NoiseChannel.from_dict ch.to_dict = some ch := by
  cases ch with
  | mk k p => simp [NoiseChannel.from_dict, NoiseChannel.to_dict, parseNoiseKind_className]

/-- Deserializing a serialized criteria recovers the criteria. -/
theorem criteria_from_dict_round (c : Criteria) :
    Criteria.from_dict c.to_dict = some c := by
  cases c with
  | gate gs qs =>
    cases gs with
    | none => rfl
    | some l =>
      simp [Criteria.to_dict, Criteria.from_dict,
        parseAll_map parseGateKind GateKind.name parseGateKind_name]
  | observable os qs =>
    cases os with
    | none => rfl
    | some l =>
      simp [Criteria.to_dict, Criteria.from_dict,
        parseAll_map parseObservableKind ObservableKind.name parseObservableKind_name]

/-- Deserializing a serialized instruction list recovers the list. -/
theorem parseInstructions_round (l : List NoiseModelInstruction) :
    parseInstructions (l.map (fun i => ⟨i.noise.to_dict, i.criteria.to_dict⟩)) = some l := by
  induction l with
  | nil => rfl
  | cons i rest ih =>
    simp [parseInstructions, channel_from_dict_round, criteria_from_dict_round, ih]

/-- C5: deserializing the structured form produced by serialization,
`NoiseModel().from_dict(M.to_dict())`, yields a model whose instruction
list is identical to `M`'s — same channel kinds and parameters, same
criteria kinds and filter sets, in the same order. -/
theorem from_dict_to_dict_round_trip (m : NoiseModel) :
    NoiseModel.from_dict m.to_dict = some m := by
  cases m with
  | mk is => simp [NoiseModel.from_dict, NoiseModel.to_dict, parseInstructions_round]

/-- C4, counterexample: on the notebook's six-instruction model, filtering
by `gate=H` does not keep the `ObservableCriteria` instructions: the
`(BitFlip(0.01), ObservableCriteria({Z}, {1}))` instruction is in the model
but absent from the filtered model, whose instruction list is exactly the
three matching `GateCriteria` instructions — matching the notebook's
recorded output and refuting the claim that a gate filter always passes
`ObservableCriteria` instructions. -/
theorem gate_filter_drops_observable_instruction :
    (⟨⟨.BitFlip, [prob001]⟩, ObservableCriteria (some [.Z]) (some [1])⟩ : NoiseModelInstruction)
      ∈ (NoiseModel.mk
          [⟨⟨.Depolarizing, [prob01]⟩, GateCriteria (some [.H]) none⟩,
           ⟨⟨.Depolarizing, [prob01]⟩, GateCriteria none none⟩,
           ⟨⟨.AmplitudeDamping, [prob01]⟩, GateCriteria none (some [0])⟩,
           ⟨⟨.PauliChannel, [prob01, prob02, prob03]⟩, GateCriteria (some [.X]) (some [0])⟩,
           ⟨⟨.PhaseFlip, [prob002]⟩, ObservableCriteria (some [.X]) (some [0])⟩,
           ⟨⟨.BitFlip, [prob001]⟩, ObservableCriteria (some [.Z]) (some [1])⟩]).instructions
    ∧ (⟨⟨.BitFlip, [prob001]⟩, ObservableCriteria (some [.Z]) (some [1])⟩ : NoiseModelInstruction)
      ∉ ((NoiseModel.mk
          [⟨⟨.Depolarizing, [prob01]⟩, GateCriteria (some [.H]) none⟩,
           ⟨⟨.Depolarizing, [prob01]⟩, GateCriteria none none⟩,
           ⟨⟨.AmplitudeDamping, [prob01]⟩, GateCriteria none (some [0])⟩,
           ⟨⟨.PauliChannel, [prob01, prob02, prob03]⟩, GateCriteria (some [.X]) (some [0])⟩,
           ⟨⟨.PhaseFlip, [prob002]⟩, ObservableCriteria (some [.X]) (some [0])⟩,
           ⟨⟨.BitFlip, [prob001]⟩, ObservableCriteria (some [.Z]) (some [1])⟩]).from_filter
          ⟨none, some .H, none⟩).instructions
    ∧ ((NoiseModel.mk
          [⟨⟨.Depolarizing, [prob01]⟩, GateCriteria (some [.H]) none⟩,
           ⟨⟨.Depolarizing, [prob01]⟩, GateCriteria none none⟩,
           ⟨⟨.AmplitudeDamping, [prob01]⟩, GateCriteria none (some [0])⟩,
           ⟨⟨.PauliChannel, [prob01, prob02, prob03]⟩, GateCriteria (some [.X]) (some [0])⟩,
           ⟨⟨.PhaseFlip, [prob002]⟩, ObservableCriteria (some [.X]) (some [0])⟩,
           ⟨⟨.BitFlip, [prob001]⟩, ObservableCriteria (some [.Z]) (some [1])⟩]).from_filter
          ⟨none, some .H, none⟩).instructions
      = [⟨⟨.Depolarizing, [prob01]⟩, GateCriteria (some [.H]) none⟩,
         ⟨⟨.Depolarizing, [prob01]⟩, GateCriteria none none⟩,
         ⟨⟨.AmplitudeDamping, [prob01]⟩, GateCriteria none (some [0])⟩] := by
  exact ⟨by decide, by decide, by decide⟩

/-- An optional filter set accepts a value exactly when it is the `none`
match-all sentinel or an explicit set containing the value. -/
theorem inFilter_eq_true_iff {α : Type} [DecidableEq α] (filt : Option (List α)) (x : α) :
    inFilter filt x = true ↔ filt = none ∨ ∃ l, filt = some l ∧ x ∈ l := by
  cases filt <;> simp [inFilter]

/-- C4, amended: `from_filter` with a `gate` filter value keeps exactly the
`GateCriteria` instructions whose gate set is `None` or contains the value;
`ObservableCriteria` instructions are removed by a gate filter rather than
always passing it (and the `from_filter` interface exposes only the
`qubit`, `gate` and `noise` filters used by the notebook — there is no
separate observable filter). -/
theorem gate_filter_keeps_exactly_matching_gate_instructions
    (m : NoiseModel) (g : GateKind) (i : NoiseModelInstruction) :
    i ∈ (m.from_filter ⟨none, some g, none⟩).instructions ↔
      i ∈ m.instructions
        ∧ ∃ gs qs, i.criteria = Criteria.gate gs qs
            ∧ (gs = none ∨ ∃ l, gs = some l ∧ g ∈ l) := by
  unfold NoiseModel.from_filter
  rw [List.mem_filter]
  apply and_congr_right
  intro _
  cases hc : i.criteria with
  | gate gs qs =>
    simp [passesQubitFilter, passesGateFilter, passesNoiseFilter, hc,
      inFilter_eq_true_iff, Criteria.qubitSet]
  | observable os qs =>
    simp [passesQubitFilter, passesGateFilter, passesNoiseFilter, hc, Criteria.qubitSet]

/-- C6: applying the empty model, or any model none of whose instructions
match any item or result declaration of the circuit, returns the circuit
unchanged. -/
theorem apply_no_match_identity (m : NoiseModel) (c : Circuit)
    (h1 : ∀ i ∈ m.instructions, ∀ it ∈ c.items, i.criteria.matchesItem it = false)
    (h2 : ∀ i ∈ m.instructions, ∀ d ∈ c.results, i.criteria.matchesResult d = false) :
    NoiseModel.apply ⟨[]⟩ c = c ∧ m.apply c = c := by
  have key : ∀ (m2 : NoiseModel),
      (∀ i ∈ m2.instructions, ∀ it ∈ c.items, i.criteria.matchesItem it = false) →
      (∀ i ∈ m2.instructions, ∀ d ∈ c.results, i.criteria.matchesResult d = false) →
      m2.apply c = c := by
    intro m2 g1 g2
    unfold NoiseModel.apply
    have hg : applyGateNoise m2 c.items = c.items :=
      applyGateNoise_eq_self (fun x hx => by
        simp only [gateNoiseFor, List.flatMap_eq_nil_iff]
        intro i hi
        simp [g1 i hi x hx])
    have hr : readoutNoiseFor m2 c.results = [] := by
      unfold readoutNoiseFor
      rw [List.flatMap_eq_nil_iff]
      intro d hd
      rw [List.flatMap_eq_nil_iff]
      intro i hi
      simp [g2 i hi d hd]
    rw [hg, hr]
    simp
  exact ⟨key ⟨[]⟩ (by simp) (by simp), key m h1 h2⟩

/-- Witness for C6: a model containing only an `ObservableCriteria`
instruction, applied to the notebook's six-gate circuit with no result
declarations, satisfies both no-match hypotheses and leaves the circuit
unchanged. -/
theorem apply_no_match_identity_witness :
    (∀ i ∈ (NoiseModel.mk
        [⟨⟨.BitFlip, [prob001]⟩, ObservableCriteria none (some [1, 2])⟩]).instructions,
      ∀ it ∈ (Circuit.mk
          [.gateOp .H [0], .gateOp .S [1], .gateOp .H [2], .gateOp .Y [0], .gateOp .X [1],
           .gateOp .Z [2]] []).items,
        i.criteria.matchesItem it = false)
    ∧ (∀ i ∈ (NoiseModel.mk
        [⟨⟨.BitFlip, [prob001]⟩, ObservableCriteria none (some [1, 2])⟩]).instructions,
      ∀ d ∈ (Circuit.mk
          [.gateOp .H [0], .gateOp .S [1], .gateOp .H [2], .gateOp .Y [0], .gateOp .X [1],
           .gateOp .Z [2]] []).results,
        i.criteria.matchesResult d = false)
    ∧ (NoiseModel.mk
        [⟨⟨.BitFlip, [prob001]⟩, ObservableCriteria none (some [1, 2])⟩]).apply
        (Circuit.mk
          [.gateOp .H [0], .gateOp .S [1], .gateOp .H [2], .gateOp .Y [0], .gateOp .X [1],
           .gateOp .Z [2]] [])
      = Circuit.mk
          [.gateOp .H [0], .gateOp .S [1], .gateOp .H [2], .gateOp .Y [0], .gateOp .X [1],
           .gateOp .Z [2]] [] :=
  ⟨by decide, by decide,
    (apply_no_match_identity
      (NoiseModel.mk [⟨⟨.BitFlip, [prob001]⟩, ObservableCriteria none (some [1, 2])⟩])
      (Circuit.mk
        [.gateOp .H [0], .gateOp .S [1], .gateOp .H [2], .gateOp .Y [0], .gateOp .X [1],
         .gateOp .Z [2]] [])
      (by decide) (by decide)).2⟩

/-- Collecting one optional element per list entry is filtering followed by
mapping. -/
theorem flatMap_if_filter {α β : Type} (l : List α) (p : α → Bool) (f : α → β) :
    (l.flatMap fun a => if p a then [f a] else []) = (l.filter p).map f := by
  induction l with
  | nil => rfl
  | cons a rest ih => cases hp : p a <;> simp [List.filter_cons, hp, ih]

/-- The readout noise of a single declaration: one noise operation on the
declaration's qubits for each matching instruction, in model order. -/
theorem readoutNoiseFor_single (m : NoiseModel) (d : ResultDecl) :
    readoutNoiseFor m [d]
      = (m.instructions.filter (fun i => i.criteria.matchesResult d)).map
          (fun i => CircuitItem.noiseOp i.noise d.targets) := by
  unfold readoutNoiseFor
  rw [List.flatMap_singleton]
  exact flatMap_if_filter m.instructions _ _

/-- The readout pass distributes over concatenation of declaration lists. -/
theorem readoutNoiseFor_append (m : NoiseModel) (ds1 ds2 : List ResultDecl) :
    readoutNoiseFor m (ds1 ++ ds2) = readoutNoiseFor m ds1 ++ readoutNoiseFor m ds2 := by
  simp [readoutNoiseFor, List.flatMap_append]

/-- C7: for every result declaration, every `ObservableCriteria`
instruction matching it (observable filter absent or containing its
observable, qubit filter absent or containing its targets) contributes, in
model order, a readout-noise operation on the declaration's qubits, placed
among the items before the readout; unmatched declarations get nothing.  In
the spec's scenario — `(BitFlip(0.01), ObservableCriteria(qubits={1,2}))`
with declarations on qubit 1 and qubit 0 — only the qubit-1 declaration
receives a `BitFlip(0.01)`; in the notebook's scenario the `Sample(X)@0`
declaration receives `PhaseFlip(0.02)` and `Sample(Z)@1` receives
`BitFlip(0.01)`. -/
theorem readout_noise_matches_in_model_order :
    ((NoiseModel.mk [⟨⟨.BitFlip, [prob001]⟩, ObservableCriteria none (some [1, 2])⟩]).apply
        ⟨[], [⟨.Z, [1]⟩, ⟨.Z, [0]⟩]⟩
      = ⟨[.noiseOp ⟨.BitFlip, [prob001]⟩ [1]], [⟨.Z, [1]⟩, ⟨.Z, [0]⟩]⟩)
    ∧ ((NoiseModel.mk [⟨⟨.PhaseFlip, [prob002]⟩, ObservableCriteria (some [.X]) (some [0])⟩,
          ⟨⟨.BitFlip, [prob001]⟩, ObservableCriteria (some [.Z]) (some [1])⟩]).apply
        ⟨[.gateOp .H [0], .gateOp .S [1], .gateOp .H [2], .gateOp .Y [0], .gateOp .X [1],
          .gateOp .Z [2]], [⟨.X, [0]⟩, ⟨.Z, [1]⟩]⟩
      = ⟨[.gateOp .H [0], .gateOp .S [1], .gateOp .H [2], .gateOp .Y [0], .gateOp .X [1],
          .gateOp .Z [2], .noiseOp ⟨.PhaseFlip, [prob002]⟩ [0],
          .noiseOp ⟨.BitFlip, [prob001]⟩ [1]], [⟨.X, [0]⟩, ⟨.Z, [1]⟩]⟩)
    ∧ (∀ (m : NoiseModel) (d : ResultDecl),
        readoutNoiseFor m [d]
          = (m.instructions.filter (fun i => i.criteria.matchesResult d)).map
              (fun i => CircuitItem.noiseOp i.noise d.targets))
    ∧ (∀ (m : NoiseModel) (ds1 ds2 : List ResultDecl),
        readoutNoiseFor m (ds1 ++ ds2) = readoutNoiseFor m ds1 ++ readoutNoiseFor m ds2) := by
  exact ⟨by decide, by decide, readoutNoiseFor_single, readoutNoiseFor_append⟩

/-- C8: `from_filter(qubit=q)` keeps, in their original relative order (a
sublist of the original), exactly the instructions whose criteria's qubit
set is the `None` match-all sentinel or explicitly contains `q`; the
original model is a value and is not mutated. -/
theorem from_filter_qubit_keeps_relevant_instructions (m : NoiseModel) (q : Nat) :
    List.Sublist (m.from_filter ⟨some q, none, none⟩).instructions m.instructions
    ∧ ∀ i, i ∈ (m.from_filter ⟨some q, none, none⟩).instructions ↔
        i ∈ m.instructions
          ∧ (i.criteria.qubitSet = none ∨ ∃ s, i.criteria.qubitSet = some s ∧ q ∈ s) := by
  constructor
  · exact List.filter_sublist _
  · intro i
    unfold NoiseModel.from_filter
    rw [List.mem_filter]
    apply and_congr_right
    intro _
    simp only [passesQubitFilter, passesGateFilter, passesNoiseFilter, Bool.and_true]
    cases hq : i.criteria.qubitSet <;> simp [hq]

/-- C9: `add_noise` appends exactly one new instruction at the end of the
ordered list — the length grows by one, all previous instructions keep
their positions, the appended pair is last — and adding a structurally
equal pair twice yields two occurrences (no deduplication). -/
theorem add_noise_appends_without_dedup (m : NoiseModel) (ch : NoiseChannel) (cr : Criteria) :
    (m.add_noise ch cr).instructions.length = m.instructions.length + 1
    ∧ (m.add_noise ch cr).instructions.take m.instructions.length = m.instructions
    ∧ (m.add_noise ch cr).instructions.getLast? = some ⟨ch, cr⟩
    ∧ ((m.add_noise ch cr).add_noise ch cr).instructions
        = m.instructions ++ [⟨ch, cr⟩, ⟨ch, cr⟩] := by
  refine ⟨?_, ?_, ?_, ?_⟩ <;> simp [NoiseModel.add_noise]

/-- C10: within one `apply` call only the input circuit's items are
examined.  The criteria `GateCriteria(qubits={0})` (no gate filter) does
match the inserted `AmplitudeDamping` noise operation — first conjunct —
yet a single `apply` to `H(q0)` inserts exactly one noise operation after
the original gate and none after the inserted noise; applying the same
model a second time (when the noise is part of the input) does insert noise
after it, showing the single-pass behaviour is structural. -/
theorem apply_single_pass_ignores_inserted_noise :
    (GateCriteria none (some [0])).matchesItem
        (.noiseOp ⟨.AmplitudeDamping, [prob01]⟩ [0]) = true
    ∧ (NoiseModel.mk [⟨⟨.AmplitudeDamping, [prob01]⟩, GateCriteria none (some [0])⟩]).apply
        ⟨[.gateOp .H [0]], []⟩
      = ⟨[.gateOp .H [0], .noiseOp ⟨.AmplitudeDamping, [prob01]⟩ [0]], []⟩
    ∧ (NoiseModel.mk [⟨⟨.AmplitudeDamping, [prob01]⟩, GateCriteria none (some [0])⟩]).apply
        ((NoiseModel.mk [⟨⟨.AmplitudeDamping, [prob01]⟩, GateCriteria none (some [0])⟩]).apply
          ⟨[.gateOp .H [0]], []⟩)
      = ⟨[.gateOp .H [0], .noiseOp ⟨.AmplitudeDamping, [prob01]⟩ [0],
          .noiseOp ⟨.AmplitudeDamping, [prob01]⟩ [0],
          .noiseOp ⟨.AmplitudeDamping, [prob01]⟩ [0]], []⟩ := by
  exact ⟨by decide, by decide, by decide⟩

end BraketNoise
